import Mathlib

/-!
Verification of the fig-kiwi container decoder and icon classifier
(`scripts/decode_kiwi.cjs`, `scripts/extract_vectors.cjs`,
`scripts/extract_hierarchy.cjs`).

Bytes are modelled as natural numbers (the scripts read them from a
`Uint8Array`, so every byte is in `0..255`); buffers are lists of bytes.
JavaScript numbers holding Figma coordinates and opacities are modelled as
rationals, and `DataView.getUint32(·, true)` as an explicit little-endian
sum.  Fallible stages (prelude check, decompression dispatch) return
`Option` or `Except` values.
-/

/- ── Chunk Reader (decode_kiwi.cjs lines 33-78) ── -/

/-- The 8 ASCII bytes of the `"fig-kiwi"` prelude. -/
def preludeBytes : List Nat := [102, 105, 103, 45, 107, 105, 119, 105]

/-- `dv.getUint32(offset, true)`: little-endian read of the first four bytes
of a buffer (the scripts only call it with at least four bytes available). -/
def readLe32 (buf : List Nat) : Nat :=
  buf.getD 0 0 + 256 * buf.getD 1 0 + 65536 * buf.getD 2 0 + 16777216 * buf.getD 3 0

/-- Little-endian encoding of a 32-bit value, used to assemble the buffers
the round-trip claims speak about. -/
def le32 (n : Nat) : List Nat :=
  [n % 256, n / 256 % 256, n / 65536 % 256, n / 16777216 % 256]

/-- The spec's buffer assembly for the chunk section: for each chunk its
4-byte little-endian length followed by its bytes. -/
def encodeChunks (chunks : List (List Nat)) : List Nat :=
  chunks.foldr (fun c acc => le32 c.length ++ c ++ acc) []

/-- One iteration of the chunk-reading `while` loop, with a fuel argument
that makes the function structurally recursive.  The loop runs while
`offset + 4 < buf.length`, i.e. while strictly more than four bytes remain;
on a declared size larger than the remaining data it stops and reports the
truncation (the `Bool` component). -/
def readChunksGo : Nat → List Nat → List (List Nat) × Bool
  | 0, _ => ([], false)
  | fuel+1, buf =>
    if 4 < buf.length then
      let size := readLe32 buf
      let rest := buf.drop 4
      if rest.length < size then ([], true)
      else
        let r := readChunksGo fuel (rest.drop size)
        ((rest.take size) :: r.1, r.2)
    else ([], false)

/-- The chunk-reading loop of decode_kiwi.cjs lines 61-71 (each iteration
consumes at least four bytes, so `buf.length` iterations always suffice). -/
def readChunks (buf : List Nat) : List (List Nat) × Bool :=
  readChunksGo buf.length buf

/-- The result of the framing stage: version, chunks, truncation flag. -/
structure FigRead where
  version : Nat
  chunks : List (List Nat)
  truncated : Bool
deriving DecidableEq, Repr

/-- Prelude validation plus version and chunk reading (decode_kiwi.cjs lines
50-71).  A buffer that fails the prelude comparison aborts; a buffer shorter
than 12 bytes would make `getUint32` throw, also modelled as `none`. -/
def readFig (buf : List Nat) : Option FigRead :=
  if buf.take 8 = preludeBytes ∧ 12 ≤ buf.length then
    some { version := readLe32 (buf.drop 8)
         , chunks := (readChunks (buf.drop 12)).1
         , truncated := (readChunks (buf.drop 12)).2 }
  else none

/-- Fatal conditions of the framing stage. -/
inductive FigError where
  | invalidPrelude
  | insufficientChunks
deriving DecidableEq, Repr

/-- The full framing stage including the `chunks.length < 2` exit of
decode_kiwi.cjs lines 75-78. -/
def figDecode (buf : List Nat) : Except FigError FigRead :=
  match readFig buf with
  | none => .error .invalidPrelude
  | some r => if r.chunks.length < 2 then .error .insufficientChunks else .ok r

/-- Buffer assembly used by the round-trip claims:
`magic ++ version ++ Σ (len(chunk) ++ chunk)`. -/
def mkFigBuf (version : Nat) (chunks : List (List Nat)) : List Nat :=
  preludeBytes ++ le32 version ++ encodeChunks chunks

/- ── Codec Dispatcher (decode_kiwi.cjs lines 34, 80-111) ── -/

/-- The zstd frame magic `0xFD2FB528`. -/
def ZSTD_MAGIC : Nat := 0xFD2FB528

/-- `isZstd` of decode_kiwi.cjs lines 93-97: a chunk shorter than four bytes
is never zstd; otherwise the first four bytes are compared little-endian
against the magic (the `>>> 0` of the script only reinterprets the signed
32-bit value as unsigned, which the natural-number sum gives directly). -/
def isZstd (chunk : List Nat) : Bool :=
  if chunk.length < 4 then false
  else readLe32 chunk == ZSTD_MAGIC

/-- The two decompression algorithms in play. -/
inductive Codec where
  | rawDeflate
  | zstdFrame
deriving DecidableEq, Repr

/-- The role a chunk plays in the container. -/
inductive ChunkRole where
  | schema
  | message
deriving DecidableEq, Repr

/-- Codec dispatch: chunk 0 is always `pako.inflateRaw`; chunk 1 goes to
`fzstd.decompress` exactly when `isZstd` holds (lines 82, 100-111). -/
def chunkCodec : ChunkRole → List Nat → Codec
  | .schema, _ => .rawDeflate
  | .message, c => if isZstd c then .zstdFrame else .rawDeflate

/- ── Node model (decoded NodeChange records) ──
Only the attributes consumed by extract_vectors.cjs and
extract_hierarchy.cjs are modelled; coordinates and opacities are
rationals. -/

/-- The two-part node identifier `{sessionID, localID}`.  The scripts key
their maps by the string `sessionID + ":" + localID`, which is injective on
numeric ids, so the pair itself serves as the key here. -/
structure GUID where
  sessionID : Nat
  localID : Nat
deriving DecidableEq

/-- `parentIndex`: parent reference plus the fractional-index position
string used for sibling ordering. -/
structure ParentIndex where
  guid : Option GUID := none
  position : Option String := none
deriving DecidableEq

/-- A solid color with components in `[0, 1]` (the `|| 0` defaults of
`colorToHex` are reflected by the fields being total). -/
structure Color where
  r : ℚ := 0
  g : ℚ := 0
  b : ℚ := 0
deriving DecidableEq

/-- A fill or stroke paint; only `color` and `opacity` are consumed by the
shape-tree builder. -/
structure Paint where
  type : String := ""
  color : Option Color := none
  opacity : Option ℚ := none
deriving DecidableEq

/-- One decoded node-change record (attributes the classifier reads). -/
structure NodeChange where
  guid : Option GUID := none
  parentIndex : Option ParentIndex := none
  type : String := ""
  name : Option String := none
  size : Option (ℚ × ℚ) := none
  transform : Option (ℚ × ℚ) := none
  fillPaints : List Paint := []
  strokePaints : List Paint := []
  strokeWeight : Option ℚ := none
  opacity : Option ℚ := none
  vectorNetworkBlob : Bool := false
deriving DecidableEq

/-- The parent key of a record: `n.parentIndex && n.parentIndex.guid`. -/
def parentGuidOf (n : NodeChange) : Option GUID :=
  n.parentIndex.bind ParentIndex.guid

/-- `nodeMap[key]` after the single build pass: the LAST record in input
order carrying the key (later records override earlier ones). -/
def nodeMap (env : List NodeChange) (key : GUID) : Option NodeChange :=
  (env.filter (fun n => decide (n.guid = some key))).getLast?

/-- `childrenMap[key]` after the single build pass: every record whose
parent reference is `key`, in input (decode-arrival) order.  Records are
appended regardless of whether the parent key resolves in `nodeMap`. -/
def childrenMap (env : List NodeChange) (key : GUID) : List NodeChange :=
  env.filter (fun n => decide (parentGuidOf n = some key))

/-- Number of records with id `g` in the child list of `pk`. -/
def childIdCount (env : List NodeChange) (pk g : GUID) : Nat :=
  (childrenMap env pk).countP (fun c => decide (c.guid = some g))

/- ── Sibling ordering of the hierarchy printer
(extract_hierarchy.cjs lines 99-103) ── -/

/-- The sort key of `printTree`:
`a.parentIndex ? a.parentIndex.position : ''`, with a missing position
falling back to the empty string. -/
def posKeyOf (n : NodeChange) : String :=
  (n.parentIndex.bind ParentIndex.position).getD ""

/-- The printer compares keys with `(pa || '').localeCompare(pb || '')`,
an ICU collation whose exact order is locale-dependent and is NOT modelled
here; the development is parametric in a string comparator `cmp`, assumed
only to be total and transitive (the preorder any consistent JavaScript
comparator induces).  `localeLe cmp` is the induced relation on records. -/
def localeLe (cmp : String → String → Bool) (a b : NodeChange) : Prop :=
  cmp (posKeyOf a) (posKeyOf b) = true

instance localeLe.decRel (cmp : String → String → Bool) :
    DecidableRel (localeLe cmp) := fun a b => by
  unfold localeLe; infer_instance

/-- The printer's `children.sort(...)`: JavaScript's `Array.prototype.sort`
is stable, and for a total preorder comparator every stable sort computes
the same list as insertion sort with the associated `≤`. -/
def sortByPosition (cmp : String → String → Bool) (l : List NodeChange) :
    List NodeChange :=
  List.insertionSort (localeLe cmp) l

/-- Plain code-point lexicographic comparison of character lists — the
claim's "lexicographic string comparison".  It is one concrete comparator,
NOT `localeCompare` in general; it does agree with any locale collation on
the single-letter lowercase keys "a" and "b" of the counterexample. -/
def lexLe : List Char → List Char → Bool
  | [], _ => true
  | _ :: _, [] => false
  | a :: as, b :: bs =>
    if a.toNat < b.toNat then true
    else if b.toNat < a.toNat then false
    else lexLe as bs

/-- Code-point comparison on strings. -/
def codePointLe (s t : String) : Bool := lexLe s.data t.data

/-- A second concrete comparator (by string length), used to witness the
comparator-parametric sorting theorem with genuine ties between DISTINCT
keys — the analogue of locale-equal distinct strings under ICU. -/
def lenLe (s t : String) : Bool := decide (s.length ≤ t.length)

/- ── Shape trees (extract_vectors.cjs lines 167-282) ── -/

/-- `Math.round`: round half toward positive infinity. -/
def jsRound (q : ℚ) : Int := ⌊q + 1 / 2⌋

/-- `v.toString(16).padStart(2, '0')` for a byte value. -/
def byteHex (v : Nat) : String :=
  let s := String.mk (Nat.toDigits 16 v)
  if s.length < 2 then "0" ++ s else s

/-- `colorToHex`: scale each component by 255, round, render lowercase hex
(components are in `[0, 1]`, so the rounded values are non-negative). -/
def colorToHex (c : Color) : String :=
  "#" ++ byteHex (jsRound (c.r * 255)).toNat
      ++ byteHex (jsRound (c.g * 255)).toNat
      ++ byteHex (jsRound (c.b * 255)).toNat

/-- `isTransparentBg`: a ROUNDED_RECTANGLE whose opacity is defined and
below 0.01. -/
def isTransparentBg (n : NodeChange) : Bool :=
  n.type == "ROUNDED_RECTANGLE" &&
    match n.opacity with
    | some o => decide (o < 1 / 100)
    | none => false

/-- A fill entry of a shape-tree node: `{color, opacity}`. -/
structure FillEntry where
  color : String
  opacity : ℚ
deriving DecidableEq

/-- A stroke entry of a shape-tree node: `{color, width}`. -/
structure StrokeEntry where
  color : String
  width : ℚ
deriving DecidableEq

/-- The per-node payload of a shape-tree node built by `buildShapeTree`. -/
structure ShapeData where
  type : String
  name : String
  guid : GUID
  size : Option (Int × Int)
  position : Option (Int × Int)
  fills : List FillEntry
  strokes : List StrokeEntry
  opacity : ℚ
  hasBlob : Bool
deriving DecidableEq

/-- A shape tree: payload plus ordered children. -/
inductive ShapeTree : Type where
  | node (data : ShapeData) (children : List ShapeTree)

def ShapeTree.dataOf : ShapeTree → ShapeData
  | .node d _ => d

def ShapeTree.childrenOf : ShapeTree → List ShapeTree
  | .node _ cs => cs

/-- The non-recursive part of `buildShapeTree`: the node object literal of
extract_vectors.cjs lines 253-270 (minus `children`, filled in by the
recursion). -/
def mkShapeData (n : NodeChange) (key : GUID) : ShapeData :=
  { type := n.type
  , name := n.name.getD ""
  , guid := key
  , size := n.size.map (fun s => (jsRound s.1, jsRound s.2))
  , position := n.transform.map (fun t => (jsRound t.1, jsRound t.2))
  , fills := n.fillPaints.filterMap (fun p =>
      p.color.map (fun c =>
        { color := colorToHex c, opacity := p.opacity.getD 1 }))
  , strokes := n.strokePaints.filterMap (fun p =>
      p.color.map (fun c =>
        { color := colorToHex c, width := n.strokeWeight.getD 1 }))
  , opacity := n.opacity.getD 1
  , hasBlob := n.vectorNetworkBlob }

/-- Result of one `buildShapeTree` call under a fuel bound: `skip` is the
JavaScript `null` (missing node or transparent background), `outOfFuel`
marks that the recursion exceeded the given fuel. -/
inductive BuildRes : Type where
  | outOfFuel
  | skip
  | tree (t : ShapeTree)

/-- `buildShapeTree` (extract_vectors.cjs lines 246-282), made total by a
fuel argument: the source recursion has no depth bound, so a cyclic
children map makes it diverge — here that shows up as `outOfFuel` for every
fuel value.  A transparent background rectangle returns `skip` BEFORE its
children are visited; a child returning `skip` is simply not pushed. -/
def buildShapeTreeFuel : Nat → List NodeChange → GUID → BuildRes
  | 0, _, _ => .outOfFuel
  | fuel+1, env, key =>
    match nodeMap env key with
    | none => .skip
    | some n =>
      if isTransparentBg n then .skip
      else
        let step : NodeChange → Option (List ShapeTree) → Option (List ShapeTree) :=
          fun c acc =>
            match acc with
            | none => none
            | some ts =>
              match c.guid with
              | none => some ts
              | some ck =>
                match buildShapeTreeFuel fuel env ck with
                | .outOfFuel => none
                | .skip => some ts
                | .tree t => some (t :: ts)
        match (childrenMap env key).foldr step (some []) with
        | none => .outOfFuel
        | some ts => .tree (.node (mkShapeData n key) ts)

mutual

/-- Guids of all nodes in a shape tree (pre-order); verification helper for
stating which nodes appear in a built tree. -/
def collectGuids : ShapeTree → List GUID
  | .node d cs => d.guid :: collectGuidsL cs

/-- List version of `collectGuids`. -/
def collectGuidsL : List ShapeTree → List GUID
  | [] => []
  | t :: rest => collectGuids t ++ collectGuidsL rest

end

/-- Guids of a build result (`[]` for `skip`/`outOfFuel`). -/
def resGuids : BuildRes → List GUID
  | .tree t => collectGuids t
  | _ => []

mutual

/-- `extractPrimaryColor` (extract_vectors.cjs lines 289-331): the ordered
priority cascade over the shape tree. -/
def extractPrimaryColor : ShapeTree → Option String
  | .node d cs =>
    if d.type = "BOOLEAN_OPERATION" ∧ d.fills ≠ [] then
      d.fills.head?.map FillEntry.color
    else if d.type = "VECTOR" ∧ d.fills ≠ [] then
      d.fills.head?.map FillEntry.color
    else if d.type = "VECTOR" ∧ d.fills = [] ∧ d.strokes ≠ [] then
      d.strokes.head?.map StrokeEntry.color
    else if d.type = "ELLIPSE" ∧ d.strokes ≠ [] then
      d.strokes.head?.map StrokeEntry.color
    else
      match firstChildColorSkipRR cs with
      | some c => some c
      | none =>
        match firstChildColor cs with
        | some c => some c
        | none => d.strokes.head?.map StrokeEntry.color

/-- First color produced by a child, skipping ROUNDED_RECTANGLE children
(the first `for` loop of `extractPrimaryColor`). -/
def firstChildColorSkipRR : List ShapeTree → Option String
  | [] => none
  | t :: rest =>
    if t.dataOf.type = "ROUNDED_RECTANGLE" then firstChildColorSkipRR rest
    else
      match extractPrimaryColor t with
      | some c => some c
      | none => firstChildColorSkipRR rest

/-- First color produced by any child (the second `for` loop). -/
def firstChildColor : List ShapeTree → Option String
  | [] => none
  | t :: rest =>
    match extractPrimaryColor t with
    | some c => some c
    | none => firstChildColor rest

end

/-- The dedup-on-insert push of `collectColors`:
`if (color && !colors.includes(color)) colors.push(color)`. -/
def pushColor (acc : List String) (c : String) : List String :=
  if c ≠ "" ∧ c ∉ acc then acc ++ [c] else acc

mutual

/-- `collectColors` (extract_vectors.cjs lines 336-345): order-preserving,
deduplicated colors of the subtree, fills then strokes then children. -/
def collectColors : ShapeTree → List String → List String
  | .node d cs, colors =>
    let c1 := d.fills.foldl (fun a f => pushColor a f.color) colors
    let c2 := d.strokes.foldl (fun a s => pushColor a s.color) c1
    collectColorsL cs c2

/-- List version of `collectColors`. -/
def collectColorsL : List ShapeTree → List String → List String
  | [], colors => colors
  | t :: rest, colors => collectColorsL rest (collectColors t colors)

end

/-- Palette of a build result (`[]` for `skip`/`outOfFuel`). -/
def resColors : BuildRes → List String
  | .tree t => collectColors t []
  | _ => []

mutual

/-- `countVectors` (extract_vectors.cjs lines 350-355). -/
def countVectors : ShapeTree → Nat
  | .node d cs => (if d.type = "VECTOR" then 1 else 0) + countVectorsL cs

/-- List version of `countVectors`. -/
def countVectorsL : List ShapeTree → Nat
  | [] => 0
  | t :: rest => countVectors t + countVectorsL rest

end

/- ── Icon container selection (extract_vectors.cjs lines 382-432) ── -/

/-- `hasVectorDescendant`: bounded search for a VECTOR or
BOOLEAN_OPERATION descendant within `maxDepth` hops. -/
def hasVectorDescendant (env : List NodeChange) (key : GUID) : Nat → Bool
  | 0 => false
  | d+1 =>
    (childrenMap env key).any fun c =>
      c.type == "VECTOR" || c.type == "BOOLEAN_OPERATION" ||
        (match c.guid with
         | some ck => hasVectorDescendant env ck d
         | none => false)

/-- The candidate-root filter of the selection loop (lines 395-406): FRAME
kind, size present with both rounded dimensions at most 32, a guid, and a
vector descendant within 5 hops. -/
def smallIconFrame (env : List NodeChange) (n : NodeChange) : Bool :=
  n.type == "FRAME" &&
    (match n.size with
     | none => false
     | some s => !(jsRound s.1 > 32 || jsRound s.2 > 32)) &&
    (match n.guid with
     | none => false
     | some key => hasVectorDescendant env key 5)

/-- The candidate roots, in input order. -/
def selectIconRoots (env : List NodeChange) : List NodeChange :=
  env.filter (smallIconFrame env)

/-- One entry of the icon inventory (lines 422-431). -/
structure IconCandidate where
  name : String
  guid : GUID
  sizeW : Int
  sizeH : Int
  parentName : Option String
  primaryColor : Option String
  allColors : List String
  vectorCount : Nat
  shapeTree : ShapeTree

/-- The record pushed onto `iconContainers` for a selected root. -/
def mkIconCandidate (env : List NodeChange) (n : NodeChange) (key : GUID)
    (t : ShapeTree) : IconCandidate :=
  { name := n.name.getD ""
  , guid := key
  , sizeW := (n.size.map (fun s => jsRound s.1)).getD 0
  , sizeH := (n.size.map (fun s => jsRound s.2)).getD 0
  , parentName := (parentGuidOf n).bind (fun pk => (nodeMap env pk).bind NodeChange.name)
  , primaryColor := extractPrimaryColor t
  , allColors := collectColors t []
  , vectorCount := countVectors t
  , shapeTree := t }

/-- Shape-tree construction and inventory assembly for the selected roots,
under a fuel bound for the unbounded `buildShapeTree` recursion: `none`
means some shape-tree build exceeded the fuel. -/
def buildCandidates (fuel : Nat) (env : List NodeChange) :
    List NodeChange → Option (List IconCandidate)
  | [] => some []
  | n :: rest =>
    match n.guid with
    | none => buildCandidates fuel env rest
    | some key =>
      match buildShapeTreeFuel fuel env key with
      | .outOfFuel => none
      | .skip => buildCandidates fuel env rest
      | .tree t =>
        match buildCandidates fuel env rest with
        | none => none
        | some cs => some (mkIconCandidate env n key t :: cs)

/-- The whole icon-finding pipeline under a fuel bound. -/
def findIconsFuel (fuel : Nat) (env : List NodeChange) :
    Option (List IconCandidate) :=
  buildCandidates fuel env (selectIconRoots env)

/-- Termination of the pipeline on a given node list: some finite fuel
completes every shape-tree build. -/
def findIconsTerminates (env : List NodeChange) : Prop :=
  ∃ fuel, (findIconsFuel fuel env).isSome

/- ── Concrete inputs used by counterexamples and witnesses ── -/

/-- C1 scenario, container FRAME `(1,0)`. -/
def c1f : NodeChange :=
  { guid := some ⟨1, 0⟩, type := "FRAME", size := some (10, 10) }

/-- C1 scenario, fully transparent background ROUNDED_RECTANGLE `(1,1)`
under the frame. -/
def c1t : NodeChange :=
  { guid := some ⟨1, 1⟩, type := "ROUNDED_RECTANGLE"
  , parentIndex := some { guid := some ⟨1, 0⟩ }
  , opacity := some (1 / 10000) }

/-- C1 scenario, non-transparent VECTOR `(1,2)` that is a child of the
transparent rectangle, with a red fill. -/
def c1v1 : NodeChange :=
  { guid := some ⟨1, 2⟩, type := "VECTOR"
  , parentIndex := some { guid := some ⟨1, 1⟩ }
  , fillPaints := [{ type := "SOLID", color := some { r := 1 } }] }

/-- C1 scenario, VECTOR `(1,3)` directly under the frame, green fill. -/
def c1v0 : NodeChange :=
  { guid := some ⟨1, 3⟩, type := "VECTOR"
  , parentIndex := some { guid := some ⟨1, 0⟩ }
  , fillPaints := [{ type := "SOLID", color := some { g := 1 } }] }

/-- C1 node list in decode-arrival order. -/
def c1env : List NodeChange := [c1f, c1t, c1v1, c1v0]

/-- C2 adversarial scenario: a small FRAME whose parent id equals its own
id, so the derived children map has a self-loop at `(1,1)`. -/
def c2s : NodeChange :=
  { guid := some ⟨1, 1⟩, type := "FRAME", size := some (10, 10)
  , parentIndex := some { guid := some ⟨1, 1⟩ } }

/-- C2 adversarial scenario: a VECTOR child of the self-looping frame,
making the frame pass the candidate filter. -/
def c2v : NodeChange :=
  { guid := some ⟨1, 2⟩, type := "VECTOR"
  , parentIndex := some { guid := some ⟨1, 1⟩ } }

/-- C2 adversarial node list. -/
def c2env : List NodeChange := [c2s, c2v]

/-- The spec's synthetic graph: only the self-referential node itself. -/
def c2specEnv : List NodeChange := [c2s]

/-- C4 counterexample: the parent record `(1,0)`. -/
def c4p : NodeChange := { guid := some ⟨1, 0⟩, type := "FRAME" }

/-- C4 counterexample: first record with id `(1,1)` under `(1,0)`. -/
def c4a : NodeChange :=
  { guid := some ⟨1, 1⟩, type := "VECTOR"
  , parentIndex := some { guid := some ⟨1, 0⟩ } }

/-- C4 counterexample: a second record with the SAME id `(1,1)` and the
same parent (a later change-log entry for the same node). -/
def c4b : NodeChange :=
  { guid := some ⟨1, 1⟩, type := "VECTOR", name := some "later"
  , parentIndex := some { guid := some ⟨1, 0⟩ } }

/-- C4 counterexample node list. -/
def c4env : List NodeChange := [c4p, c4a, c4b]

/-- C4 witness: a single child record under `(1,0)`. -/
def c4n : NodeChange :=
  { guid := some ⟨1, 1⟩, type := "VECTOR"
  , parentIndex := some { guid := some ⟨1, 0⟩ } }

/-- C4 witness node list (all ids distinct). -/
def c4wenv : List NodeChange := [c4p, c4n]

/-- C6 counterexample: parent `(1,0)`. -/
def c6p : NodeChange := { guid := some ⟨1, 0⟩, type := "FRAME" }

/-- C6 counterexample: child with position key `"b"`, arriving first. -/
def c6b : NodeChange :=
  { guid := some ⟨1, 1⟩, type := "VECTOR"
  , parentIndex := some { guid := some ⟨1, 0⟩, position := some "b" } }

/-- C6 counterexample: child with position key `"a"`, arriving second. -/
def c6a : NodeChange :=
  { guid := some ⟨1, 2⟩, type := "VECTOR"
  , parentIndex := some { guid := some ⟨1, 0⟩, position := some "a" } }

/-- C6 counterexample node list. -/
def c6env : List NodeChange := [c6p, c6b, c6a]

/-- C6 witness: child with the two-character key "aa", arriving first. -/
def c6w3 : NodeChange :=
  { guid := some ⟨3, 3⟩, type := "VECTOR"
  , parentIndex := some { guid := some ⟨3, 0⟩, position := some "aa" } }

/-- C6 witness: child with key "b", arriving second. -/
def c6w1 : NodeChange :=
  { guid := some ⟨3, 1⟩, type := "VECTOR"
  , parentIndex := some { guid := some ⟨3, 0⟩, position := some "b" } }

/-- C6 witness: child with key "a", arriving third; under the length
comparator "b" and "a" are tied distinct keys. -/
def c6w2 : NodeChange :=
  { guid := some ⟨3, 2⟩, type := "VECTOR"
  , parentIndex := some { guid := some ⟨3, 0⟩, position := some "a" } }

/-- C6 witness child list in arrival order. -/
def c6wlist : List NodeChange := [c6w3, c6w1, c6w2]

/-- C5 example: data of a BOOLEAN_OPERATION node with fill #1677FF. -/
def c5bo : ShapeData :=
  { type := "BOOLEAN_OPERATION", name := "", guid := ⟨0, 1⟩
  , size := none, position := none
  , fills := [{ color := "#1677FF", opacity := 1 }]
  , strokes := [], opacity := 1, hasBlob := false }

/-- C5 example: a child VECTOR with fill #1F8FFB. -/
def c5child : ShapeTree :=
  .node { type := "VECTOR", name := "", guid := ⟨0, 2⟩
        , size := none, position := none
        , fills := [{ color := "#1F8FFB", opacity := 1 }]
        , strokes := [], opacity := 1, hasBlob := true } []

/-- C5 example 1: boolean-combine root with a filled path-shape child. -/
def c5ex1 : ShapeTree := .node c5bo [c5child]

/-- C5 example 2: data of a stroke-only path-shape with stroke #070828. -/
def c5d2 : ShapeData :=
  { type := "VECTOR", name := "", guid := ⟨0, 3⟩
  , size := none, position := none, fills := []
  , strokes := [{ color := "#070828", width := 1 }]
  , opacity := 1, hasBlob := true }

/-- C5 example 2: the stroke-only path-shape tree. -/
def c5ex2 : ShapeTree := .node c5d2 []

/-- C9 counterexample: a FRAME of fractional size 32.4 x 10 — `Math.round`
brings 32.4 down to 32, so the filter accepts it. -/
def c9f : NodeChange :=
  { guid := some ⟨2, 0⟩, type := "FRAME", size := some (162 / 5, 10) }

/-- C9 counterexample: a VECTOR child of the fractional-size frame. -/
def c9v : NodeChange :=
  { guid := some ⟨2, 1⟩, type := "VECTOR"
  , parentIndex := some { guid := some ⟨2, 0⟩ } }

/-- C9 counterexample node list. -/
def c9env : List NodeChange := [c9f, c9v]

/- ── framing lemmas ── -/

theorem readLe32_le32_append (n : Nat) (t : List Nat) (h : n < 2 ^ 32) :
    readLe32 (le32 n ++ t) = n := by
  simp [readLe32, le32]
  omega

theorem le32_length (n : Nat) : (le32 n).length = 4 := rfl

theorem readChunksGo_irrel :
    ∀ (f g : Nat) (buf : List Nat), buf.length ≤ f → buf.length ≤ g →
      readChunksGo f buf = readChunksGo g buf := by
  intro f
  induction f with
  | zero =>
    intro g buf hf _
    have hb : buf = [] := List.length_eq_zero.mp (Nat.le_zero.mp hf)
    subst hb
    cases g <;> simp [readChunksGo]
  | succ f ih =>
    intro g buf hf hg
    cases g with
    | zero =>
      have hb : buf = [] := List.length_eq_zero.mp (Nat.le_zero.mp hg)
      subst hb
      simp [readChunksGo]
    | succ g =>
      simp only [readChunksGo]
      by_cases h4 : 4 < buf.length
      · simp only [h4, if_pos]
        have hlen : ((buf.drop 4).drop (readLe32 buf)).length ≤ f := by
          simp [List.length_drop]
          omega
        have hlen' : ((buf.drop 4).drop (readLe32 buf)).length ≤ g := by
          simp [List.length_drop]
          omega
        rw [ih g _ hlen hlen']
      · simp [h4]

/-- The loop equation of `readChunks`, free of the fuel bookkeeping. -/
theorem readChunks_eq (buf : List Nat) :
    readChunks buf =
      if 4 < buf.length then
        if (buf.drop 4).length < readLe32 buf then ([], true)
        else
          (((buf.drop 4).take (readLe32 buf)) ::
              (readChunks ((buf.drop 4).drop (readLe32 buf))).1,
            (readChunks ((buf.drop 4).drop (readLe32 buf))).2)
      else ([], false) := by
  unfold readChunks
  by_cases h4 : 4 < buf.length
  · obtain ⟨m, hm⟩ : ∃ m, buf.length = m + 1 := ⟨buf.length - 1, by omega⟩
    rw [hm]
    simp only [readChunksGo, h4, if_pos]
    have hlen : ((buf.drop 4).drop (readLe32 buf)).length ≤ m := by
      simp [List.length_drop]
      omega
    rw [readChunksGo_irrel m _ _ hlen (le_refl _)]
    rw [if_pos (show (4 : Nat) < m + 1 from hm ▸ h4)]
  · rw [if_neg h4]
    cases hb : buf.length with
    | zero => rfl
    | succ m =>
      simp only [readChunksGo]
      rw [if_neg h4]

theorem encodeChunks_ne_nil_length {chunks : List (List Nat)} (h : chunks ≠ []) :
    4 ≤ (encodeChunks chunks).length := by
  cases chunks with
  | nil => exact absurd rfl h
  | cons c rest => simp [encodeChunks, le32]

/-- Reading an encoded chunk sequence followed by any tail first yields the
encoded chunks, then continues on the tail — provided the very last frame is
still entered by the loop (more than four bytes remaining at that point). -/
theorem readChunks_encode_append :
    ∀ (chunks : List (List Nat)) (tail : List Nat),
      (∀ c ∈ chunks, c.length < 2 ^ 32) →
      (∀ lc, chunks.getLast? = some lc → lc ≠ [] ∨ tail ≠ []) →
      readChunks (encodeChunks chunks ++ tail) =
        (chunks ++ (readChunks tail).1, (readChunks tail).2) := by
  intro chunks
  induction chunks with
  | nil =>
    intro tail _ _
    simp [encodeChunks]
  | cons c rest ih =>
    intro tail hlen hlast
    have hc : c.length < 2 ^ 32 := hlen c (by simp)
    have henc : encodeChunks (c :: rest) ++ tail
        = le32 c.length ++ (c ++ (encodeChunks rest ++ tail)) := by
      simp [encodeChunks]
    rw [henc, readChunks_eq]
    have hlen4 : (le32 c.length).length = 4 := rfl
    have h4 : 4 < (le32 c.length ++ (c ++ (encodeChunks rest ++ tail))).length := by
      simp only [List.length_append, hlen4]
      rcases Decidable.em (rest = []) with hr | hr
      · have hne := hlast c (by simp [hr])
        have hpos : 0 < c.length + tail.length := by
          rcases hne with h | h
          · have := List.length_pos.mpr h; omega
          · have := List.length_pos.mpr h; omega
        omega
      · have := encodeChunks_ne_nil_length hr
        omega
    rw [if_pos h4]
    rw [readLe32_le32_append _ _ hc]
    have hdrop : (le32 c.length ++ (c ++ (encodeChunks rest ++ tail))).drop 4
        = c ++ (encodeChunks rest ++ tail) := by
      rw [show (4 : Nat) = (le32 c.length).length from rfl, List.drop_left]
    rw [hdrop]
    have hnotrunc : ¬ (c ++ (encodeChunks rest ++ tail)).length < c.length := by
      simp
    rw [if_neg hnotrunc]
    rw [show (c ++ (encodeChunks rest ++ tail)).take c.length = c from List.take_left c _]
    rw [show (c ++ (encodeChunks rest ++ tail)).drop c.length = encodeChunks rest ++ tail
      from List.drop_left c _]
    have hlast' : ∀ lc, rest.getLast? = some lc → lc ≠ [] ∨ tail ≠ [] := by
      intro lc hlc
      apply hlast
      cases rest with
      | nil => simp at hlc
      | cons r rs => rw [List.getLast?_cons_cons]; exact hlc
    rw [ih tail (fun x hx => hlen x (by simp [hx])) hlast']
    simp

theorem readChunks_nil : readChunks [] = ([], false) := rfl

/-- Reading any buffer with a valid prelude: the version comes from bytes
8-11 and the chunk loop runs on the remainder. -/
theorem readFig_mk (v : Nat) (body : List Nat) (hv : v < 2 ^ 32) :
    readFig (preludeBytes ++ le32 v ++ body) =
      some ⟨v, (readChunks body).1, (readChunks body).2⟩ := by
  have hpre : (preludeBytes ++ le32 v ++ body).take 8 = preludeBytes := by
    rw [List.append_assoc, show (8 : Nat) = preludeBytes.length from rfl, List.take_left]
  have hlen12 : 12 ≤ (preludeBytes ++ le32 v ++ body).length := by
    simp [preludeBytes, le32]
  have hdrop8 : (preludeBytes ++ le32 v ++ body).drop 8 = le32 v ++ body := by
    rw [List.append_assoc, show (8 : Nat) = preludeBytes.length from rfl, List.drop_left]
  have hdrop12 : (preludeBytes ++ le32 v ++ body).drop 12 = body := by
    rw [show (12 : Nat) = (preludeBytes ++ le32 v).length from rfl, List.drop_left]
  unfold readFig
  rw [if_pos ⟨hpre, hlen12⟩, hdrop8, hdrop12, readLe32_le32_append _ _ hv]

/-- Round-trip reading of a fully assembled buffer (the caller guarantees
that the last chunk, if any, is non-empty). -/
theorem readFig_roundTrip (v : Nat) (chunks : List (List Nat))
    (hv : v < 2 ^ 32)
    (hlen : ∀ c ∈ chunks, c.length < 2 ^ 32)
    (hlast : ∀ lc, chunks.getLast? = some lc → lc ≠ []) :
    readFig (mkFigBuf v chunks) = some ⟨v, chunks, false⟩ := by
  have hrc : readChunks (encodeChunks chunks) = (chunks, false) := by
    have h := readChunks_encode_append chunks [] hlen
      (fun lc hlc => Or.inl (hlast lc hlc))
    simpa [readChunks_nil] using h
  unfold mkFigBuf
  rw [readFig_mk v _ hv, hrc]

/-- A frame whose declared length exceeds the remaining bytes stops the loop
with the truncation flag set and only the chunks before it returned. -/
theorem readChunks_truncated (good : List (List Nat)) (L : Nat) (rest : List Nat)
    (hlen : ∀ c ∈ good, c.length < 2 ^ 32) (hL : L < 2 ^ 32)
    (hrest : rest.length < L) (hne : rest ≠ []) :
    readChunks (encodeChunks good ++ (le32 L ++ rest)) = (good, true) := by
  have htail : readChunks (le32 L ++ rest) = ([], true) := by
    rw [readChunks_eq]
    have h4 : 4 < (le32 L ++ rest).length := by
      have := List.length_pos.mpr hne
      simp [le32]
      omega
    rw [if_pos h4, readLe32_le32_append _ _ hL]
    rw [show (le32 L ++ rest).drop 4 = rest from by
      rw [show (4 : Nat) = (le32 L).length from rfl, List.drop_left]]
    rw [if_pos hrest]
  rw [readChunks_encode_append good _ hlen
      (fun lc _ => Or.inr (by simp [le32])), htail]
  simp

/- ── claim theorems: framing and codec dispatch ── -/

/-- C3 (counterexample): the reading loop stops once four or fewer bytes
remain, so a buffer assembled for the single chunk sequence `[[]]` (one
empty chunk) reads back zero chunks, not one — the round-trip claim fails
for a trailing empty chunk. -/
theorem C3_trailing_empty_chunk_dropped :
    readFig (mkFigBuf 7 [[]]) = some ⟨7, [], false⟩ ∧
      ([[]] : List (List Nat)) ≠ [] := by
  constructor
  · decide
  · decide

/-- C3 (amended): for every version below `2^32` and every chunk sequence of
chunk lengths below `2^32` whose final chunk (if any) is non-empty, reading
the assembled buffer `magic ++ version ++ Σ (len ++ chunk)` returns exactly
that version and exactly those chunks in order, with no truncation; the loop
consumes length-prefixed chunks while more than four bytes remain. -/
theorem C3_round_trip_framing (v : Nat) (chunks : List (List Nat))
    (hv : v < 2 ^ 32)
    (hlen : ∀ c ∈ chunks, c.length < 2 ^ 32)
    (hlast : ∀ lc, chunks.getLast? = some lc → lc ≠ []) :
    readFig (mkFigBuf v chunks) = some ⟨v, chunks, false⟩ :=
  readFig_roundTrip v chunks hv hlen hlast

/-- Witness for C3: a concrete two-chunk buffer round-trips. -/
theorem C3_round_trip_framing_witness :
    readFig (mkFigBuf 101 [[1], [2, 3]]) = some ⟨101, [[1], [2, 3]], false⟩ :=
  C3_round_trip_framing 101 [[1], [2, 3]] (by decide) (by decide)
    (by intro lc h; injection h with h2; subst h2; decide)

theorem isZstd_iff (c : List Nat) :
    isZstd c = true ↔ 4 ≤ c.length ∧ readLe32 c = ZSTD_MAGIC := by
  unfold isZstd
  by_cases h : c.length < 4
  · simp [h]
  · simp [h, beq_iff_eq]
    omega

/-- C7 (confirmed): the schema chunk is always routed to raw-deflate
regardless of its bytes, and the message chunk is routed to the zstd frame
codec exactly when its first four bytes, read as a little-endian unsigned
32-bit integer, equal the zstd magic. -/
theorem C7_codec_dispatch (c : List Nat) :
    chunkCodec .schema c = .rawDeflate ∧
      (chunkCodec .message c = .zstdFrame ↔
        4 ≤ c.length ∧ readLe32 c = ZSTD_MAGIC) := by
  refine ⟨rfl, ?_⟩
  unfold chunkCodec
  by_cases hz : isZstd c = true
  · simp [hz, (isZstd_iff c).mp hz]
  · simp [hz]
    intro hl hm
    exact absurd ((isZstd_iff c).mpr ⟨hl, hm⟩) hz

/-- C10 (confirmed): a message chunk shorter than four bytes never passes
the zstd magic test (the length guard fires before any byte is read), so it
is always routed to raw-deflate. -/
theorem C10_short_chunk_raw_deflate (c : List Nat) (h : c.length < 4) :
    isZstd c = false ∧ chunkCodec .message c = .rawDeflate := by
  have hz : isZstd c = false := by unfold isZstd; simp [h]
  refine ⟨hz, ?_⟩
  unfold chunkCodec
  simp [hz]

/-- Witness for C10: a two-byte chunk that starts like the zstd magic is
still routed to raw-deflate. -/
theorem C10_short_chunk_raw_deflate_witness :
    isZstd [40, 181] = false ∧ chunkCodec .message [40, 181] = .rawDeflate :=
  C10_short_chunk_raw_deflate [40, 181] (by decide)

/-- C8 (confirmed): with a valid prelude and version, a chunk whose declared
length exceeds the remaining bytes stops the reader at that chunk: exactly
the fully read chunks before it are reported together with the truncation
flag, and the decode fails with `insufficientChunks` precisely when fewer
than two complete chunks were read. -/
theorem C8_truncation_and_insufficient (v : Nat) (good : List (List Nat))
    (L : Nat) (rest : List Nat)
    (hv : v < 2 ^ 32) (hlen : ∀ c ∈ good, c.length < 2 ^ 32) (hL : L < 2 ^ 32)
    (hrest : rest.length < L) (hne : rest ≠ []) :
    readFig (preludeBytes ++ le32 v ++ (encodeChunks good ++ (le32 L ++ rest)))
        = some ⟨v, good, true⟩ ∧
      figDecode (preludeBytes ++ le32 v ++ (encodeChunks good ++ (le32 L ++ rest)))
        = if good.length < 2 then .error .insufficientChunks
          else .ok ⟨v, good, true⟩ := by
  have h1 := readFig_mk v (encodeChunks good ++ (le32 L ++ rest)) hv
  rw [readChunks_truncated good L rest hlen hL hrest hne] at h1
  refine ⟨h1, ?_⟩
  unfold figDecode
  rw [h1]

/-- Witness for C8: two complete chunks followed by a frame declaring 9
bytes with only 1 remaining gives a truncated but sufficient read. -/
theorem C8_truncation_witness :
    figDecode (preludeBytes ++ le32 1 ++ (encodeChunks [[7], [8]] ++ (le32 9 ++ [0])))
      = .ok ⟨1, [[7], [8]], true⟩ := by
  have h := C8_truncation_and_insufficient 1 [[7], [8]] 9 [0]
    (by decide) (by decide) (by decide) (by decide) (by decide)
  simpa using h.2


/- ── graph lemmas (C4) ── -/

theorem countP_guid_zero (g : GUID) (p : NodeChange → Bool)
    (l : List NodeChange) (h : g ∉ l.filterMap NodeChange.guid) :
    l.countP (fun c => decide (c.guid = some g) && p c) = 0 := by
  rw [List.countP_eq_zero]
  intro a ha
  simp only [Bool.and_eq_true, decide_eq_true_eq, not_and]
  intro hg
  exact absurd (List.mem_filterMap.mpr ⟨a, ha, hg⟩) h

theorem countP_guid_parent (g pk : GUID) :
    ∀ l : List NodeChange, (l.filterMap NodeChange.guid).Nodup →
      ∀ n ∈ l, n.guid = some g → parentGuidOf n = some pk →
      l.countP (fun c =>
        decide (c.guid = some g) && decide (parentGuidOf c = some pk)) = 1 := by
  intro l
  induction l with
  | nil => intro _ n hn; simp at hn
  | cons c rest ih =>
    intro hnd n hn hg hp
    rw [List.countP_cons]
    rcases List.mem_cons.mp hn with rfl | hmem
    · have hcc : (decide (n.guid = some g) && decide (parentGuidOf n = some pk))
          = true := by simp [hg, hp]
      rw [hcc]
      have hg' : g ∉ rest.filterMap NodeChange.guid := by
        rw [List.filterMap_cons, hg] at hnd
        exact (List.nodup_cons.mp hnd).1
      rw [countP_guid_zero g _ rest hg']
      simp
    · have hcg : c.guid ≠ some g := by
        intro hcg
        rw [List.filterMap_cons, hcg] at hnd
        exact (List.nodup_cons.mp hnd).1
          (List.mem_filterMap.mpr ⟨n, hmem, hg⟩)
      have hcf : (decide (c.guid = some g) && decide (parentGuidOf c = some pk))
          = false := by simp [hcg]
      rw [hcf]
      have hnd' : (rest.filterMap NodeChange.guid).Nodup := by
        rw [List.filterMap_cons] at hnd
        cases hc : c.guid with
        | none => rwa [hc] at hnd
        | some x => rw [hc] at hnd; exact (List.nodup_cons.mp hnd).2
      simpa using ih hnd' n hmem hg hp

theorem childIdCount_eq_countP (env : List NodeChange) (pk g : GUID) :
    childIdCount env pk g
      = env.countP (fun c =>
          decide (c.guid = some g) && decide (parentGuidOf c = some pk)) := by
  unfold childIdCount childrenMap
  rw [List.countP_filter]

/-- C4 (counterexample): two records carrying the SAME id under the same
(resolvable) parent are BOTH appended to the parent's child list, so the id
occurs twice — last-write-wins applies only to the id-to-record map, not to
the child list. -/
theorem C4_duplicate_id_listed_twice :
    (nodeMap c4env ⟨1, 0⟩).isSome = true ∧
      c4a.guid = some ⟨1, 1⟩ ∧ parentGuidOf c4a = some ⟨1, 0⟩ ∧
      c4b.guid = some ⟨1, 1⟩ ∧ parentGuidOf c4b = some ⟨1, 0⟩ ∧
      childIdCount c4env ⟨1, 0⟩ ⟨1, 1⟩ = 2 := by
  with_unfolding_all decide

/-- C4 (amended): when the input ids are pairwise distinct, every record
with a resolvable parent occurs in that parent's child list exactly once.
With duplicate records sharing an id and a parent, the id occurs once per
record. -/
theorem C4_child_listed_once_when_ids_unique (env : List NodeChange)
    (n : NodeChange) (g pk : GUID)
    (hnd : (env.filterMap NodeChange.guid).Nodup)
    (hn : n ∈ env) (hg : n.guid = some g) (hp : parentGuidOf n = some pk)
    (hres : (nodeMap env pk).isSome = true) :
    childIdCount env pk g = 1 := by
  rw [childIdCount_eq_countP]
  exact countP_guid_parent g pk env hnd n hn hg hp

/-- Witness for C4: one parent, one child, distinct ids. -/
theorem C4_child_listed_once_witness : childIdCount c4wenv ⟨1, 0⟩ ⟨1, 1⟩ = 1 :=
  C4_child_listed_once_when_ids_unique c4wenv c4n ⟨1, 1⟩ ⟨1, 0⟩
    (by decide) (by decide) (by decide) (by decide) (by decide)

/- ── sibling-order lemmas (C6) ── -/

theorem localeLe_of_key_eq (cmp : String → String → Bool)
    (htot : ∀ s t, cmp s t = true ∨ cmp t s = true)
    {a b : NodeChange} (h : posKeyOf a = posKeyOf b) : localeLe cmp a b := by
  unfold localeLe
  rcases htot (posKeyOf a) (posKeyOf b) with hab | hba
  · exact hab
  · rw [h]
    rw [h] at hba
    exact hba

/-- Filtering by any predicate whose holders are mutually comparable-below
under the comparator commutes with an ordered insert: the inserted element
lands in front of the matching elements already present. -/
theorem filter_orderedInsert_tied (cmp : String → String → Bool)
    (P : NodeChange → Bool)
    (hP : ∀ a b : NodeChange, P a = true → P b = true → localeLe cmp a b)
    (a : NodeChange) :
    ∀ l : List NodeChange,
      (List.orderedInsert (localeLe cmp) a l).filter P
        = (if P a then [a] else []) ++ l.filter P := by
  intro l
  induction l with
  | nil =>
    simp only [List.orderedInsert, List.filter]
    by_cases h : P a
    · simp [h]
    · simp [h]
  | cons b bs ih =>
    rw [List.orderedInsert]
    by_cases hab : localeLe cmp a b
    · rw [if_pos hab, List.filter_cons, List.filter_cons]
      by_cases ha : P a = true <;> simp [ha]
    · rw [if_neg hab, List.filter_cons, List.filter_cons, ih]
      have hnot : ¬ (P a = true ∧ P b = true) := by
        rintro ⟨h1, h2⟩
        exact hab (hP a b h1 h2)
      by_cases ha : P a = true
      · have hb : ¬ P b = true := fun h2 => hnot ⟨ha, h2⟩
        simp [ha, hb]
      · by_cases hb : P b = true <;> simp [ha, hb]

theorem filter_sortByPosition_tied (cmp : String → String → Bool)
    (P : NodeChange → Bool)
    (hP : ∀ a b : NodeChange, P a = true → P b = true → localeLe cmp a b) :
    ∀ l : List NodeChange, (sortByPosition cmp l).filter P = l.filter P := by
  intro l
  induction l with
  | nil => rfl
  | cons a l ih =>
    unfold sortByPosition at ih ⊢
    rw [List.insertionSort, filter_orderedInsert_tied cmp P hP, ih, List.filter_cons]
    by_cases ha : P a = true <;> simp [ha]

/-- C6 (counterexample): the shape-tree builder's child traversal is the
raw `childrenMap` order (decode arrival), NOT sorted by `childOrderKey`:
with children arriving with keys "b" then "a", both the children map and
the built shape tree keep the arrival order, which is unsorted — here
under the claim's lexicographic comparison, with which every locale
collation agrees on the lowercase single-letter keys "a" and "b". -/
theorem C6_builder_keeps_arrival_order :
    childrenMap c6env ⟨1, 0⟩ = [c6b, c6a] ∧
      posKeyOf c6b = "b" ∧ posKeyOf c6a = "a" ∧
      ¬ List.Sorted (localeLe codePointLe) (childrenMap c6env ⟨1, 0⟩) ∧
      resGuids (buildShapeTreeFuel 3 c6env ⟨1, 0⟩) = [⟨1, 0⟩, ⟨1, 1⟩, ⟨1, 2⟩] := by
  have h1 : childrenMap c6env ⟨1, 0⟩ = [c6b, c6a] := rfl
  refine ⟨h1, rfl, rfl, ?_, by with_unfolding_all decide⟩
  rw [h1]
  intro hs
  have hba := (List.sorted_cons.mp hs).1 c6a (by simp)
  revert hba
  with_unfolding_all decide

/-- C6 (amended): only the hierarchy printer sorts each node's children,
and it does so with the `localeCompare` comparator on the position
strings, whose ICU collation order is locale-defined and not modelled
here.  For EVERY total and transitive comparator, the printer's stable
sort returns the children sorted by that comparator, as a permutation of
the input, with equal-key children — and more generally comparator-tied
children, which covers locale-equal distinct keys — kept in
decode-arrival order; the icon shape-tree builder traverses children in
decode-arrival order, a sublist of the input order, without sorting. -/
theorem C6_printer_sorts_children (cmp : String → String → Bool)
    (htot : ∀ s t, cmp s t = true ∨ cmp t s = true)
    (htrans : ∀ s t u, cmp s t = true → cmp t u = true → cmp s u = true)
    (l : List NodeChange) :
    List.Sorted (localeLe cmp) (sortByPosition cmp l) ∧
      (sortByPosition cmp l).Perm l ∧
      (∀ k, (sortByPosition cmp l).filter (fun c => decide (posKeyOf c = k))
          = l.filter (fun c => decide (posKeyOf c = k))) ∧
      (∀ x : NodeChange, (sortByPosition cmp l).filter
            (fun c => cmp (posKeyOf x) (posKeyOf c) && cmp (posKeyOf c) (posKeyOf x))
          = l.filter
            (fun c => cmp (posKeyOf x) (posKeyOf c) && cmp (posKeyOf c) (posKeyOf x))) ∧
      (∀ env pk, (childrenMap env pk).Sublist env) := by
  refine ⟨?_, List.perm_insertionSort _ _, fun k => ?_, fun x => ?_,
    fun env pk => List.filter_sublist _⟩
  · haveI : IsTotal NodeChange (localeLe cmp) := ⟨fun a b => htot _ _⟩
    haveI : IsTrans NodeChange (localeLe cmp) :=
      ⟨fun a b c h1 h2 => htrans _ _ _ h1 h2⟩
    exact List.sorted_insertionSort _ _
  · apply filter_sortByPosition_tied
    intro a b ha hb
    simp only [decide_eq_true_eq] at ha hb
    exact localeLe_of_key_eq cmp htot (ha.trans hb.symm)
  · apply filter_sortByPosition_tied
    intro a b ha hb
    simp only [Bool.and_eq_true] at ha hb
    exact htrans _ _ _ ha.2 hb.1

/-- Witness for C6: the parametric sorting theorem applied at the concrete
length comparator and child list; the sort puts the two tied distinct
single-character keys before "aa" in their arrival order. -/
theorem C6_printer_sorts_children_witness :
    List.Sorted (localeLe lenLe) (sortByPosition lenLe c6wlist) ∧
      (sortByPosition lenLe c6wlist).Perm c6wlist ∧
      sortByPosition lenLe c6wlist = [c6w1, c6w2, c6w3] := by
  have htot : ∀ s t : String, lenLe s t = true ∨ lenLe t s = true := by
    intro s t
    unfold lenLe
    rcases Nat.le_total s.length t.length with h | h
    · left; exact decide_eq_true h
    · right; exact decide_eq_true h
  have htrans : ∀ s t u : String,
      lenLe s t = true → lenLe t u = true → lenLe s u = true := by
    intro s t u h1 h2
    unfold lenLe at h1 h2 ⊢
    exact decide_eq_true (Nat.le_trans (of_decide_eq_true h1) (of_decide_eq_true h2))
  obtain ⟨hs, hp, _, _, _⟩ := C6_printer_sorts_children lenLe htot htrans c6wlist
  exact ⟨hs, hp, by with_unfolding_all decide⟩

/- ── shape-tree lemmas (C1, C2) ── -/

theorem buildShapeTreeFuel_transparent (fuel : Nat) (env : List NodeChange)
    (k : GUID) (n : NodeChange)
    (hn : nodeMap env k = some n) (ht : isTransparentBg n = true) :
    buildShapeTreeFuel (fuel + 1) env k = .skip := by
  simp [buildShapeTreeFuel, hn, ht]

/-- C1 (counterexample): a fully transparent background rectangle is
dropped WHOLESALE from the shape tree: its non-transparent VECTOR child
`(1,2)` does not appear anywhere in the tree built for the icon root, and
the child's red fill is missing from the palette as well. -/
theorem C1_transparent_child_dropped :
    isTransparentBg c1t = true ∧
      parentGuidOf c1v1 = some ⟨1, 1⟩ ∧
      isTransparentBg c1v1 = false ∧
      resGuids (buildShapeTreeFuel 10 c1env ⟨1, 0⟩) ≠ [] ∧
      ⟨1, 2⟩ ∉ resGuids (buildShapeTreeFuel 10 c1env ⟨1, 0⟩) ∧
      "#ff0000" ∉ resColors (buildShapeTreeFuel 10 c1env ⟨1, 0⟩) := by
  with_unfolding_all decide

/-- C1 (amended): a node classified as a fully transparent background
rectangle makes `buildShapeTree` return null outright, so the node, its
fill/stroke data AND its entire subtree (children included, transparent or
not) are omitted from the shape tree and the palette.  On the concrete
icon scenario only the frame and its directly attached VECTOR survive, and
the palette holds only that VECTOR's color. -/
theorem C1_transparent_bg_subtree_omitted :
    (∀ (fuel : Nat) (env : List NodeChange) (k : GUID) (n : NodeChange),
        nodeMap env k = some n → isTransparentBg n = true →
        buildShapeTreeFuel (fuel + 1) env k = .skip) ∧
      resGuids (buildShapeTreeFuel 10 c1env ⟨1, 0⟩) = [⟨1, 0⟩, ⟨1, 3⟩] ∧
      resColors (buildShapeTreeFuel 10 c1env ⟨1, 0⟩) = ["#00ff00"] := by
  refine ⟨buildShapeTreeFuel_transparent, ?_, ?_⟩ <;> with_unfolding_all decide

/-- Witness for C1: the transparent rectangle of the concrete scenario is
skipped by the builder at any fuel. -/
theorem C1_transparent_bg_subtree_omitted_witness :
    buildShapeTreeFuel 1 c1env ⟨1, 1⟩ = .skip :=
  C1_transparent_bg_subtree_omitted.1 0 c1env ⟨1, 1⟩ c1t rfl
    (by with_unfolding_all decide)

theorem buildShapeTreeFuel_c2_diverges :
    ∀ fuel, buildShapeTreeFuel fuel c2env ⟨1, 1⟩ = .outOfFuel := by
  intro fuel
  induction fuel with
  | zero => rfl
  | succ fuel ih =>
    simp only [buildShapeTreeFuel,
      show nodeMap c2env ⟨1, 1⟩ = some c2s from rfl,
      show childrenMap c2env ⟨1, 1⟩ = [c2s, c2v] from rfl,
      show isTransparentBg c2s = false from rfl,
      show c2s.guid = some ⟨1, 1⟩ from rfl,
      show c2v.guid = some ⟨1, 2⟩ from rfl,
      List.foldr_cons, List.foldr_nil, ih]
    cases buildShapeTreeFuel fuel c2env ⟨1, 2⟩ <;> simp

/-- C2 (counterexample): a node whose parent id equals its own id can make
the pipeline diverge: the self-looping record is itself a small FRAME with
a VECTOR child, so it passes the (bounded) candidate filter, and the
UNBOUNDED `buildShapeTree` recursion then never terminates — no finite
fuel completes `findIcons`. -/
theorem C2_self_loop_can_diverge :
    parentGuidOf c2s = c2s.guid ∧ ¬ findIconsTerminates c2env := by
  refine ⟨rfl, ?_⟩
  rintro ⟨fuel, hsome⟩
  have hnone : findIconsFuel fuel c2env = none := by
    unfold findIconsFuel
    rw [show selectIconRoots c2env = [c2s] from by with_unfolding_all decide]
    simp only [buildCandidates]
    rw [show c2s.guid = some ⟨1, 1⟩ from rfl]
    simp [buildShapeTreeFuel_c2_diverges fuel]
  rw [hnone] at hsome
  simp at hsome

/-- C2 (amended): the descendant search (`hasVectorDescendant`) is
depth-bounded and total, and on the spec's synthetic graph — a single node
whose parent id equals its own id — it reports no vector descendant at any
depth, so the node is never selected and the pipeline terminates; but
shape-tree construction itself carries no depth bound, so termination of
the whole pipeline requires that no selected candidate can reach a cycle
(see the counterexample). -/
theorem C2_bounded_search_terminates :
    (∀ d, hasVectorDescendant c2specEnv ⟨1, 1⟩ d = false) ∧
      findIconsFuel 1 c2specEnv = some [] := by
  constructor
  · intro d
    induction d with
    | zero => rfl
    | succ d ih =>
      simp only [hasVectorDescendant]
      rw [show childrenMap c2specEnv ⟨1, 1⟩ = [c2s] from rfl]
      simp only [List.any_cons, List.any_nil, Bool.or_false]
      rw [show c2s.guid = some ⟨1, 1⟩ from rfl]
      simp [ih]
      decide
  · unfold findIconsFuel
    rw [show selectIconRoots c2specEnv = [] from by with_unfolding_all decide]
    rfl

/- ── primary-color extraction (C5) ── -/

/-- C5 (confirmed): `extractPrimaryColor` follows the exact deterministic
priority cascade: (1) boolean-combine fill, (2) path-shape fill, (3)
path-shape stroke when it has no fill, (4) ellipse stroke, (5)-(6)
children in order — first skipping rounded-rectangle children, then
including them, (7) the node's own first stroke, (8) nothing.  The two
spec examples evaluate as claimed (hex digits are compared as given; the
builder itself renders them lowercase). -/
theorem C5_primary_color_priority :
    (∀ (d : ShapeData) (cs : List ShapeTree) (f : FillEntry) (fs : List FillEntry),
        d.type = "BOOLEAN_OPERATION" → d.fills = f :: fs →
        extractPrimaryColor (.node d cs) = some f.color) ∧
    (∀ (d : ShapeData) (cs : List ShapeTree) (f : FillEntry) (fs : List FillEntry),
        d.type = "VECTOR" → d.fills = f :: fs →
        extractPrimaryColor (.node d cs) = some f.color) ∧
    (∀ (d : ShapeData) (cs : List ShapeTree) (s : StrokeEntry) (ss : List StrokeEntry),
        d.type = "VECTOR" → d.fills = [] → d.strokes = s :: ss →
        extractPrimaryColor (.node d cs) = some s.color) ∧
    (∀ (d : ShapeData) (cs : List ShapeTree) (s : StrokeEntry) (ss : List StrokeEntry),
        d.type = "ELLIPSE" → d.strokes = s :: ss →
        extractPrimaryColor (.node d cs) = some s.color) ∧
    (∀ (d : ShapeData) (cs : List ShapeTree),
        ¬ (d.type = "BOOLEAN_OPERATION" ∧ d.fills ≠ []) →
        ¬ (d.type = "VECTOR" ∧ d.fills ≠ []) →
        ¬ (d.type = "VECTOR" ∧ d.fills = [] ∧ d.strokes ≠ []) →
        ¬ (d.type = "ELLIPSE" ∧ d.strokes ≠ []) →
        extractPrimaryColor (.node d cs) =
          (match firstChildColorSkipRR cs with
           | some c => some c
           | none =>
             match firstChildColor cs with
             | some c => some c
             | none => d.strokes.head?.map StrokeEntry.color)) ∧
    extractPrimaryColor c5ex1 = some "#1677FF" ∧
    extractPrimaryColor c5ex2 = some "#070828" := by
  refine ⟨?_, ?_, ?_, ?_, ?_, by with_unfolding_all decide, by with_unfolding_all decide⟩
  · intro d cs f fs h1 h2
    simp [extractPrimaryColor, h1, h2]
  · intro d cs f fs h1 h2
    simp [extractPrimaryColor, h1, h2]
  · intro d cs s ss h1 h2 h3
    simp [extractPrimaryColor, h1, h2, h3]
  · intro d cs s ss h1 h2
    simp [extractPrimaryColor, h1, h2]
  · intro d cs h1 h2 h3 h4
    simp only [extractPrimaryColor, h1, h2, h3, h4, if_false]

/-- Witness for C5: rules 1 and 3 applied at the two spec examples. -/
theorem C5_primary_color_priority_witness :
    extractPrimaryColor c5ex1 = some "#1677FF" ∧
      extractPrimaryColor c5ex2 = some "#070828" :=
  ⟨C5_primary_color_priority.1 c5bo [c5child] ⟨"#1677FF", 1⟩ [] rfl rfl,
   C5_primary_color_priority.2.2.1 c5d2 [] ⟨"#070828", 1⟩ [] rfl rfl rfl⟩

/- ── candidate selection (C9) ── -/

/-- C9 (counterexample): the filter compares `Math.round`ed dimensions
against 32, so a FRAME whose actual width is 32.4 (> 32) with a VECTOR
child is still selected as an icon-candidate root, against the claim's
"both dimensions ≤ 32". -/
theorem C9_fractional_dimension_selected :
    c9f ∈ selectIconRoots c9env ∧
      c9f.size = some (162 / 5, 10) ∧
      ¬ ((162 : ℚ) / 5 ≤ 32) := by
  refine ⟨by with_unfolding_all decide, rfl, by with_unfolding_all decide⟩

/-- C9 (amended): a node is selected as an icon-candidate root iff it is a
FRAME record, its size is present with both ROUNDED dimensions at most 32
(Math.round, i.e. actual dimension < 32.5), it carries a guid, and a
VECTOR or BOOLEAN_OPERATION descendant is reachable within 5 parent-to-
child hops of the bounded search. -/
theorem C9_candidate_selection (env : List NodeChange) (n : NodeChange) :
    n ∈ selectIconRoots env ↔
      n ∈ env ∧ n.type = "FRAME" ∧
      (∃ x y, n.size = some (x, y) ∧ jsRound x ≤ 32 ∧ jsRound y ≤ 32) ∧
      (∃ k, n.guid = some k ∧ hasVectorDescendant env k 5 = true) := by
  unfold selectIconRoots
  rw [List.mem_filter]
  unfold smallIconFrame
  constructor
  · rintro ⟨hmem, hb⟩
    simp only [Bool.and_eq_true, beq_iff_eq] at hb
    obtain ⟨⟨hty, hsz⟩, hgd⟩ := hb
    refine ⟨hmem, hty, ?_, ?_⟩
    · cases hs : n.size with
      | none => rw [hs] at hsz; simp at hsz
      | some s =>
        obtain ⟨x, y⟩ := s
        rw [hs] at hsz
        simp only [Bool.not_eq_true', Bool.or_eq_false_iff,
          decide_eq_false_iff_not, not_lt] at hsz
        exact ⟨x, y, rfl, hsz.1, hsz.2⟩
    · cases hg : n.guid with
      | none => rw [hg] at hgd; simp at hgd
      | some k => exact ⟨k, rfl, by rw [hg] at hgd; exact hgd⟩
  · rintro ⟨hmem, hty, ⟨x, y, hsz, hx, hy⟩, k, hk, hv⟩
    refine ⟨hmem, ?_⟩
    simp only [Bool.and_eq_true, beq_iff_eq]
    refine ⟨⟨hty, ?_⟩, ?_⟩
    · rw [hsz]
      simp only [Bool.not_eq_true', Bool.or_eq_false_iff,
        decide_eq_false_iff_not, not_lt]
      exact ⟨hx, hy⟩
    · rw [hk]
      exact hv

/-- Witness for C9: a 10x10 FRAME with a VECTOR child is selected. -/
theorem C9_candidate_selection_witness : c1f ∈ selectIconRoots c1env :=
  (C9_candidate_selection c1env c1f).mpr
    ⟨by decide, rfl, ⟨10, 10, rfl, by with_unfolding_all decide,
      by with_unfolding_all decide⟩,
     ⟨⟨1, 0⟩, rfl, by with_unfolding_all decide⟩⟩
